import Mathlib

/-!
Shallow embedding of `mongosql/statements.py`: the Mongo-style clause
parsers and compilers (projection, sort, group, criteria, join, aggregate)
that translate a document-style query description into typed plan
fragments.  Python values are embedded as explicit inductive types,
Python `dict`s as ordered association lists (insertion order preserved,
later writes update in place), and Python exceptions as an `Err` sum
returned through `Except`.
-/

namespace MongoSql

/-- Python exceptions raised by the translator: `AssertionError msg`
(validation failures), `KeyError` (missing dict key), `IndexError`
(out-of-bounds string indexing such as `v[-1]` on an empty string) and
`TypeError` (taking the truth value of a SQL clause object). -/
inductive Err where
  | assertionError (msg : String)
  | keyError (k : String)
  | indexError
  | typeError
deriving DecidableEq

/-- Column type as seen by the compiler: `isinstance(col.type, pg.ARRAY)`
decides array-ness; an array type carries its `item_type` name. -/
inductive ColType where
  | scalar (t : String)
  | array (item : String)
deriving DecidableEq

/-- A schema-supplied column handle (opaque identity plus type metadata). -/
structure Column where
  cname : String
  ctype : ColType
deriving DecidableEq

/-- Whether `isinstance(col.type, pg.ARRAY)` holds. -/
def Column.isArray (c : Column) : Bool :=
  match c.ctype with
  | .array _ => true
  | .scalar _ => false

/-- A schema-supplied relation handle. -/
structure Relation where
  rname : String
deriving DecidableEq

/-- JSON-shaped surface values accepted by the DSL. -/
inductive JVal where
  | null
  | bool (b : Bool)
  | int (n : Int)
  | str (s : String)
  | arr (vs : List JVal)
  | obj (kvs : List (String × JVal))

/-- Python truthiness of a surface value. -/
def JVal.truthy : JVal → Bool
  | .null => false
  | .bool b => b
  | .int n => n != 0
  | .str s => !s.data.isEmpty
  | .arr vs => !vs.isEmpty
  | .obj kvs => !kvs.isEmpty

/-- `isinstance(value, (list, tuple))`. -/
def JVal.isList : JVal → Bool
  | .arr _ => true
  | _ => false

/-- Query options emitted towards the backend: `load_only(column)` and
`lazyload(relation_name)`. -/
inductive QueryOpt where
  | load_only (c : Column)
  | lazyload (r : String)
deriving DecidableEq

/-- Build a `String` from a character list (Python slicing results). -/
def strOfL (l : List Char) : String := String.mk l

/-- Python `dict` update semantics on an ordered association list: an
existing key keeps its position and gets the new value, a new key is
appended. -/
def dictInsert : List (String × Int) → String → Int → List (String × Int)
  | [], k, v => [(k, v)]
  | (k', v') :: rest, k, v =>
    if k' = k then (k', v) :: rest else (k', v') :: dictInsert rest k v

/-- Python dict comprehension `{k: v for k in ks}`. -/
def dictOfList (ks : List String) (v : Int) : List (String × Int) :=
  ks.foldl (fun m k => dictInsert m k v) []

/-- Python `OrderedDict(pairs)`. -/
def dictOfPairs (ps : List (String × Int)) : List (String × Int) :=
  ps.foldl (fun m kv => dictInsert m kv.1 kv.2) []

/-- Python `str.split(sep)` on character lists for a one-character
separator: splits at every separator, keeping empty pieces; the empty
string yields one empty piece. -/
def splitAux : List Char → List (List Char)
  | [] => [[]]
  | c :: rest =>
    if c = ',' then [] :: splitAux rest
    else
      match splitAux rest with
      | [] => [[c]]
      | t :: ts => (c :: t) :: ts

/-- Python `s.split(',')` producing strings. -/
def pySplit (s : String) : List String := (splitAux s.data).map strOfL

/- ## Projection (`MongoProjection`) -/

/-- Surface input accepted by `MongoProjection.__init__`. -/
inductive ProjArg where
  | none
  | str (s : String)
  | list (ks : List String)
  | obj (kvs : List (String × Int))

/-- Python truthiness of the projection argument (`if not projection`). -/
def ProjArg.truthy : ProjArg → Bool
  | .none => false
  | .str s => !s.data.isEmpty
  | .list ks => !ks.isEmpty
  | .obj kvs => !kvs.isEmpty

/-- The normalized projection held by a `MongoProjection` instance:
inclusion/exclusion mode plus the ordered `{field: 0|1}` map. -/
structure MongoProjection where
  inclusion_mode : Bool
  projection : List (String × Int)
deriving DecidableEq

/-- Leading-sign handling of the string syntax: `'-'` selects exclusion
mode and is stripped, `'+'` selects inclusion mode and is stripped, any
other first character leaves the string as-is in inclusion mode. -/
def stripSign : List Char → Bool × List Char
  | [] => (true, [])
  | c :: rest =>
    if c = '-' then (false, rest)
    else if c = '+' then (true, rest)
    else (true, c :: rest)

/-- `MongoProjection.__init__`: normalize any accepted surface form into
mode plus `{field: 0|1}`, or fail on a mixed-value object. -/
def parseProjection (arg : ProjArg) : Except Err MongoProjection :=
  if arg.truthy = false then .ok ⟨false, []⟩
  else
    match arg with
    | .none => .ok ⟨false, []⟩
    | .str s =>
      let (mode, body) := stripSign s.data
      .ok ⟨mode, dictOfList ((splitAux body).map strOfL) (if mode then 1 else 0)⟩
    | .list ks => .ok ⟨true, dictOfList ks 1⟩
    | .obj kvs =>
      if (kvs.map (·.2)).sum = 0 ∨ (kvs.map (·.2)).sum = kvs.length then
        .ok ⟨kvs.any (fun kv => kv.2 != 0), kvs⟩
      else .error (.assertionError "Dict projection values shall be all 0s or all 1s")

/-- Inner loop of the inclusion branch of `MongoProjection.columns`:
look every projected field up in the model columns. -/
def projIncludeLoop (cols : List (String × Column)) :
    List (String × Int) → Except Err (List Column)
  | [] => .ok []
  | kv :: rest =>
    match cols.lookup kv.1 with
    | some c => (projIncludeLoop cols rest).map (c :: ·)
    | none => .error (.keyError kv.1)

/-- `MongoProjection.columns`: check the projected names against the
model, then list the columns to load (projected ones in inclusion mode,
all the others in exclusion mode). -/
def projectionColumns (cols : List (String × Column))
    (projection : List (String × Int)) (inclusion_mode : Bool) :
    Except Err (List Column) :=
  if projection.all (fun kv => (cols.lookup kv.1).isSome) then
    if inclusion_mode then projIncludeLoop cols projection
    else .ok ((cols.filter
      (fun kv => !((projection.map Prod.fst).contains kv.1))).map (·.2))
  else .error (.assertionError "Invalid column specified in projection")

/-- `MongoProjection.options`: wrap each selected column in `load_only`. -/
def projectionOptions (cols : List (String × Column))
    (projection : List (String × Int)) (inclusion_mode : Bool) :
    Except Err (List QueryOpt) :=
  (projectionColumns cols projection inclusion_mode).map (·.map .load_only)

/-- `MongoProjection.__call__` on a model with columns `cols`. -/
def mongoProjectionCall (cols : List (String × Column))
    (p : MongoProjection) : Except Err (List QueryOpt) :=
  projectionOptions cols p.projection p.inclusion_mode

/-- Parse then compile a projection (the full pipeline). -/
def projPlan (cols : List (String × Column)) (arg : ProjArg) :
    Except Err (List QueryOpt) :=
  match parseProjection arg with
  | .ok p => mongoProjectionCall cols p
  | .error e => .error e

/-- A sample one-column schema used by concrete checks. -/
def colA : Column := ⟨"a", .scalar "int"⟩

/-- A sample schema map with the single column `a`. -/
def cols1 : List (String × Column) := [("a", colA)]

/- ## Sort and group (`MongoSort`, `MongoGroup`) -/

/-- Surface input accepted by `MongoSort.__init__` (and `MongoGroup`):
`None`, a comma-separated string, a list of strings, an ordered map. -/
inductive SortArg where
  | none
  | str (s : String)
  | list (ss : List String)
  | omap (kvs : List (String × Int))

/-- Python truthiness of the sort argument (`if not sort_spec`). -/
def SortArg.truthy : SortArg → Bool
  | .none => false
  | .str s => !s.data.isEmpty
  | .list ss => !ss.isEmpty
  | .omap kvs => !kvs.isEmpty

/-- Per-token handling of the string syntax: `v[-1]` is inspected first,
so an empty token raises `IndexError`; a trailing `-` gives direction
`-1`, a trailing `+` gives `+1`, both stripped, anything else keeps the
token with direction `+1`. -/
def parseSortTokens : List String → Except Err (List (String × Int))
  | [] => .ok []
  | v :: rest =>
    match v.data.getLast? with
    | Option.none => .error .indexError
    | some c =>
      let entry : String × Int :=
        if c = '-' then (strOfL v.data.dropLast, -1)
        else if c = '+' then (strOfL v.data.dropLast, 1)
        else (v, 1)
      (parseSortTokens rest).map (entry :: ·)

/-- The direction check shared by all branches of `MongoSort.__init__`. -/
def sortDirsOk (sort : List (String × Int)) : Bool :=
  sort.all (fun kv => kv.2 = -1 || kv.2 = 1)

/-- `MongoSort.__init__` (also `MongoGroup.__init__` via inheritance):
normalize the surface form into an ordered `{field: ±1}` map.  `clsName`
is `type(self).__name__`, used in the direction error message. -/
def parseSort (clsName : String) (arg : SortArg) :
    Except Err (List (String × Int)) :=
  if arg.truthy = false then .ok []
  else
    match arg with
    | .none => .ok []
    | .str s =>
      match parseSortTokens (pySplit s) with
      | .error e => .error e
      | .ok ps =>
        let sort := dictOfPairs ps
        if sortDirsOk sort then .ok sort
        else .error (.assertionError (clsName ++ " direction can be either +1 or -1"))
    | .list ss =>
      match parseSortTokens ss with
      | .error e => .error e
      | .ok ps =>
        let sort := dictOfPairs ps
        if sortDirsOk sort then .ok sort
        else .error (.assertionError (clsName ++ " direction can be either +1 or -1"))
    | .omap kvs =>
      if sortDirsOk kvs then .ok kvs
      else .error (.assertionError (clsName ++ " direction can be either +1 or -1"))

/-- A sort key handed to the backend: either the bare column handle or
the column wrapped by `.desc()`. -/
inductive OrderKey where
  | col (c : Column)
  | desc (c : Column)
deriving DecidableEq

/-- Inner loop of `MongoSort.columns`: resolve each field and apply the
direction (`columns[name].desc()` for `-1`, the bare handle otherwise). -/
def sortKeysLoop (cols : List (String × Column)) :
    List (String × Int) → Except Err (List OrderKey)
  | [] => .ok []
  | kv :: rest =>
    match cols.lookup kv.1 with
    | some c =>
      (sortKeysLoop cols rest).map
        ((if kv.2 = -1 then OrderKey.desc c else OrderKey.col c) :: ·)
    | Option.none => .error (.keyError kv.1)

/-- `MongoSort.columns` (a classmethod, so the error message carries the
name of the class it was invoked through). -/
def mongoSortColumns (clsName : String) (cols : List (String × Column))
    (sort : List (String × Int)) : Except Err (List OrderKey) :=
  if sort.all (fun kv => (cols.lookup kv.1).isSome) then sortKeysLoop cols sort
  else .error (.assertionError ("Invalid column specified in " ++ clsName))

/-- `MongoGroup.__call__`: it reuses `MongoSort.columns` unchanged. -/
def mongoGroupCall (cols : List (String × Column))
    (sort : List (String × Int)) : Except Err (List OrderKey) :=
  mongoSortColumns "MongoGroup" cols sort

/-- `MongoSort.__call__`. -/
def mongoSortCall (cols : List (String × Column))
    (sort : List (String × Int)) : Except Err (List OrderKey) :=
  mongoSortColumns "MongoSort" cols sort

/- ## Criteria (`MongoCriteria`) -/

/-- The right-hand side of a compiled comparison: either the surface
value itself, or — when both the column and the operand are arrays —
the operand wrapped in `cast(pg.array(value), pg.ARRAY(item_type))`. -/
inductive Operand where
  | val (v : JVal)
  | castArray (vs : List JVal) (itemType : String)

/-- The compiled predicate tree, one node per SQLAlchemy expression the
source builds.  `selfGroup` records a `.self_group()` call, `trueP` the
Python `True` returned for an empty criteria. -/
inductive Pred where
  | trueP
  | eq (c : Column) (v : Operand)
  | anyEq (c : Column) (v : Operand)
  | ne (c : Column) (v : Operand)
  | allNe (c : Column) (v : Operand)
  | lt (c : Column) (v : Operand)
  | le (c : Column) (v : Operand)
  | ge (c : Column) (v : Operand)
  | gt (c : Column) (v : Operand)
  | overlap (c : Column) (v : Operand)
  | inL (c : Column) (v : Operand)
  | notInL (c : Column) (v : Operand)
  | isNotNull (c : Column)
  | isNull (c : Column)
  | containsC (c : Column) (v : Operand)
  | arrLenNull (c : Column)
  | arrLenEq (c : Column) (v : Operand)
  | andP (ps : List Pred)
  | orP (ps : List Pred)
  | notP (p : Pred)
  | selfGroup (p : Pred)

/-- Operand preparation done before the operator dispatch: when both the
column and the value are arrays, the value is cast to the column's
element type. -/
def prepOperand (col : Column) (v : JVal) : Operand :=
  match col.ctype, v with
  | .array it, .arr vs => .castArray vs it
  | _, _ => .val v

/-- Python truthiness of a prepared operand (`if value:`): a plain value
uses surface truthiness, while a SQL cast object refuses `bool()` with a
`TypeError`. -/
def operandTruthy : Operand → Except Err Bool
  | .val v => .ok v.truthy
  | .castArray _ _ => .error .typeError

/-- Python `value == 0` as a boolean (`0 == 0` and `False == 0` hold). -/
def pyEqZero : JVal → Bool
  | .int n => n = 0
  | .bool b => !b
  | _ => false

/-- The operator dispatch of `MongoCriteria.statetement` for a single
`(column, op, value)` leaf, in source order, including the unreachable
inner `$ne` branch and the `$size` message that names `$all`. -/
def compileOp (col : Column) (op : String) (v : JVal) : Except Err Pred :=
  let varr := v.isList
  let carr := col.isArray
  let value := prepOperand col v
  if op = "$eq" then
    .ok (if carr then (if varr then .eq col value else .anyEq col value)
         else .eq col value)
  else if op = "$ne" then
    .ok (if carr && !varr then
           (if varr then .ne col value else .allNe col value)
         else .ne col value)
  else if op = "$lt" then .ok (.lt col value)
  else if op = "$lte" then .ok (.le col value)
  else if op = "$gte" then .ok (.ge col value)
  else if op = "$gt" then .ok (.gt col value)
  else if op = "$in" then
    if !varr then .error (.assertionError "Criteria: $in argument must be a list")
    else .ok (if carr then .overlap col value else .inL col value)
  else if op = "$nin" then
    if !varr then .error (.assertionError "Criteria: $nin argument must be a list")
    else .ok (if carr then .notP (.overlap col value) else .notInL col value)
  else if op = "$exists" then
    match operandTruthy value with
    | .ok b => .ok (if b then .isNotNull col else .isNull col)
    | .error e => .error e
  else if op = "$all" then
    if !carr then .error (.assertionError "Criteria: $all can only be applied to an array column")
    else if !varr then .error (.assertionError "Criteria: $all argument must be a list")
    else .ok (.containsC col value)
  else if op = "$size" then
    if !carr then .error (.assertionError "Criteria: $all can only be applied to an array column")
    else
      match value with
      | .castArray _ _ => .error .typeError
      | .val w => .ok (if pyEqZero w then .arrLenNull col else .arrLenEq col value)
  else .error (.assertionError ("Criteria: unsupported operator \x22" ++ op ++ "\x22"))

/-- Loop over the operator entries of one field (`for op, value in
criteria.items()`), collecting one condition per operator. -/
def opsLoop (col : Column) : List (String × JVal) → Except Err (List Pred)
  | [] => .ok []
  | (op, v) :: rest =>
    match compileOp col op v with
    | .ok p => (opsLoop col rest).map (p :: ·)
    | .error e => .error e

/-- `or_(*ps)` followed by `.self_group()` when more than one child. -/
def orGrouped : List Pred → Pred
  | [p] => p
  | ps => .selfGroup (.orP ps)

/-- `and_(*ps)` followed by `.self_group()` when more than one child. -/
def andGrouped : List Pred → Pred
  | [p] => p
  | ps => .selfGroup (.andP ps)

/-- `$nor`: negation of the (grouped) disjunction. -/
def norGrouped : List Pred → Pred
  | [p] => .notP p
  | ps => .notP (.selfGroup (.orP ps))

/-- The final `and_` of all collected conditions: `True` when empty, the
single condition as-is, otherwise a self-grouped conjunction. -/
def finishAnd : List Pred → Pred
  | [] => .trueP
  | [p] => p
  | ps => .selfGroup (.andP ps)

/-- The column-name check at the top of `MongoCriteria.statetement`:
every key that is not a boolean combinator must be a model column. -/
def critKeysOk (cols : List (String × Column))
    (kvs : List (String × JVal)) : Bool :=
  kvs.all (fun kv =>
    kv.1 == "$or" || kv.1 == "$and" || kv.1 == "$nor" || kv.1 == "$not"
      || (cols.lookup kv.1).isSome)

mutual

/-- `MongoCriteria.statetement` on a criteria dict: check the column
names, compile every entry, and conjoin the collected conditions. -/
def stmtObj (cols : List (String × Column)) (kvs : List (String × JVal)) :
    Except Err Pred :=
  if critKeysOk cols kvs then
    match stmtEntries cols kvs with
    | .ok conds => .ok (finishAnd conds)
    | .error e => .error e
  else .error (.assertionError "Invalid column specified in Criteria")
termination_by (sizeOf kvs, 1)

/-- The `for col_name, criteria in criteria.items()` loop, concatenating
the conditions contributed by each entry. -/
def stmtEntries (cols : List (String × Column)) :
    List (String × JVal) → Except Err (List Pred)
  | [] => .ok []
  | (k, v) :: rest =>
    match stmtEntry cols k v with
    | .ok cs =>
      match stmtEntries cols rest with
      | .ok more => .ok (cs ++ more)
      | .error e => .error e
    | .error e => .error e
termination_by kvs => (sizeOf kvs, 0)

/-- One entry of the criteria dict: a boolean combinator (`$or`, `$and`,
`$nor` with list arguments, `$not` with a dict argument) or a field with
either an operator object or a bare value faked into `{$eq: value}`. -/
def stmtEntry (cols : List (String × Column)) (k : String) (v : JVal) :
    Except Err (List Pred) :=
  if k = "$or" then
    match v with
    | .arr l =>
      if l.isEmpty then .ok []
      else
        match stmtList cols l with
        | .ok ps => .ok [orGrouped ps]
        | .error e => .error e
    | _ => .error (.assertionError "Criteria: $or argument must be a list")
  else if k = "$and" then
    match v with
    | .arr l =>
      if l.isEmpty then .ok []
      else
        match stmtList cols l with
        | .ok ps => .ok [andGrouped ps]
        | .error e => .error e
    | _ => .error (.assertionError "Criteria: $and argument must be a list")
  else if k = "$nor" then
    match v with
    | .arr l =>
      if l.isEmpty then .ok []
      else
        match stmtList cols l with
        | .ok ps => .ok [norGrouped ps]
        | .error e => .error e
    | _ => .error (.assertionError "Criteria: $nor argument must be a list")
  else if k = "$not" then
    match v with
    | .obj kvs2 =>
      match stmtObj cols kvs2 with
      | .ok p => .ok [.notP p]
      | .error e => .error e
    | _ => .error (.assertionError "Criteria: $not argument must be a dict")
  else
    match cols.lookup k with
    | some col =>
      match v with
      | .obj okvs => opsLoop col okvs
      | w => opsLoop col [("$eq", w)]
    | Option.none => .error (.keyError k)
termination_by (sizeOf v, 0)

/-- `map(lambda s: cls.statetement(columns, s), criteria)`: compile each
element of a combinator's argument list; a non-dict element breaks with
an `AttributeError`-like failure (`.items()` on a non-dict). -/
def stmtList (cols : List (String × Column)) :
    List JVal → Except Err (List Pred)
  | [] => .ok []
  | v :: rest =>
    match v with
    | .obj kvs =>
      match stmtObj cols kvs with
      | .ok p =>
        match stmtList cols rest with
        | .ok ps => .ok (p :: ps)
        | .error e => .error e
      | .error e => .error e
    | _ => .error .typeError
termination_by l => (sizeOf l, 1)

end

/- ## Join (`MongoJoin`) -/

/-- `MongoJoin.options`: check every requested relation name against the
model's relations, then emit a `lazyload` directive for every relation
that was NOT requested. -/
def mongoJoinOptions (rels : List (String × Relation))
    (relnames : List String) : Except Err (List QueryOpt) :=
  if relnames.all (fun r => (rels.map Prod.fst).contains r) then
    .ok (((rels.map Prod.fst).filter
      (fun n => !relnames.contains n)).map .lazyload)
  else .error (.assertionError "Invalid column specified in MongoJoin")

/- ## Aggregate (`MongoAggregate`) -/

/-- `isinstance(expression, int)` under Python semantics, where `bool`
is a subclass of `int`. -/
def toPyInt? : JVal → Option Int
  | .int n => some n
  | .bool b => some (if b then 1 else 0)
  | _ => Option.none

/-- The resolved operand of an aggregate operator (`expression_stmt`):
a bare integer (the `$sum` counting special case), a column handle, or a
compiled criteria predicate cast to `Integer`. -/
inductive AggExprStmt where
  | intE (n : Int)
  | colE (c : Column)
  | castE (p : Pred)

/-- A compiled aggregate body (`comp_stmt`), before labeling. -/
inductive CompStmt where
  | colRefS (c : Column)
  | maxS (e : AggExprStmt)
  | minS (e : AggExprStmt)
  | avgS (e : AggExprStmt)
  | sumS (e : AggExprStmt)
  | countS
  | countMulS (n : Int)

/-- A labeled selectable (`stmt.label(comp_field)`). -/
structure Selectable where
  label : String
  stmt : CompStmt

/-- Resolution of an aggregate operator operand, in source order: an
integer is kept as-is only under `$sum`; a string must name a column; a
dict is compiled as a criteria predicate and cast to `Integer`; anything
else is a shape error. -/
def aggExprStmt (cols : List (String × Column)) (op : String) (e : JVal) :
    Except Err AggExprStmt :=
  if (toPyInt? e).isSome && op = "$sum" then .ok (.intE ((toPyInt? e).getD 0))
  else
    match e with
    | .str s =>
      match cols.lookup s with
      | some c => .ok (.colE c)
      | Option.none => .error (.assertionError ("Aggregate: invalid column `" ++ s ++ "`"))
    | .obj kvs =>
      match stmtObj cols kvs with
      | .ok p => .ok (.castE p)
      | .error e => .error e
    | _ => .error (.assertionError "Aggregate: expression should be either a column name, or an object")

/-- The operator dispatch of `MongoAggregate.selectables`: `$max`,
`$min`, `$avg` wrap the resolved operand; `$sum` of a bare integer is
`count()`, multiplied when the integer differs from 1; `$sum` of
anything else is `sum(...)`; other operators fail. -/
def aggOpStmt (op : String) (stmt : AggExprStmt) : Except Err CompStmt :=
  if op = "$max" then .ok (.maxS stmt)
  else if op = "$min" then .ok (.minS stmt)
  else if op = "$avg" then .ok (.avgS stmt)
  else if op = "$sum" then
    .ok (match stmt with
      | .intE n => if n = 1 then .countS else .countMulS n
      | s => .sumS s)
  else .error (.assertionError ("Aggregate: unsupported operator \x22" ++ op ++ "\x22"))

/-- One entry of the aggregate spec.  A string expression resolves to a
labeled column and is left untouched; an object expression must hold
exactly one operator entry, which `popitem()` REMOVES from the object,
so the returned post-state of the expression is the emptied object. -/
def selectOne (cols : List (String × Column)) (f : String) (e : JVal) :
    Except Err (Selectable × JVal) :=
  match e with
  | .str s =>
    match cols.lookup s with
    | some c => .ok (⟨f, .colRefS c⟩, .str s)
    | Option.none => .error (.assertionError ("Aggregate: Invalid column `" ++ s ++ "`"))
  | .obj kvs =>
    match kvs with
    | [(op, expr)] =>
      match aggExprStmt cols op expr with
      | .ok stmt =>
        match aggOpStmt op stmt with
        | .ok comp => .ok (⟨f, comp⟩, .obj [])
        | .error err => .error err
      | .error err => .error err
    | _ => .error (.assertionError "Aggregate: expression can only contain a single operator")
  | _ => .error (.assertionError "Aggregate: Expression should be either a column name, or an object")

/-- `MongoAggregate.selectables` with the mutation of the spec made
explicit: the result carries both the emitted selectables and the
post-state of the aggregate spec (each compiled object expression left
empty by `popitem()`). -/
def selectables (cols : List (String × Column)) :
    List (String × JVal) → Except Err (List Selectable × List (String × JVal))
  | [] => .ok ([], [])
  | (f, e) :: rest =>
    match selectOne cols f e with
    | .ok (sel, e') =>
      match selectables cols rest with
      | .ok (sels, rest') => .ok (sel :: sels, (f, e') :: rest')
      | .error err => .error err
    | .error err => .error err

/-- What one aggregate entry's expression looks like after compilation:
an object is emptied by `popitem()`, anything else is unchanged. -/
def emptyExprObj : JVal → JVal
  | .obj _ => .obj []
  | x => x

/-- The post-state `MongoAggregate.selectables` leaves behind: every
object-valued expression is emptied, everything else is unchanged. -/
def emptyExprObjs (spec : List (String × JVal)) : List (String × JVal) :=
  spec.map fun kv => (kv.1, emptyExprObj kv.2)

/- ## Substring helper (for error-token statements) -/

/-- Whether `pat` is an initial segment of `s`. -/
def startsWithL : List Char → List Char → Bool
  | [], _ => true
  | _ :: _, [] => false
  | c :: cs, d :: ds => c = d && startsWithL cs ds

/-- Whether `pat` occurs contiguously in `s`. -/
def hasSubL (pat : List Char) : List Char → Bool
  | [] => startsWithL pat []
  | s@(_ :: rest) => startsWithL pat s || hasSubL pat rest

/-- Whether the string `pat` occurs in `s` (used to state that an error
message carries an operator token). -/
def strContains (s pat : String) : Bool := hasSubL pat.data s.data

/- ## Sample schemas for concrete checks -/

/-- A second scalar column. -/
def colB : Column := ⟨"b", .scalar "str"⟩

/-- An array-typed column (`tags: array<str>`). -/
def tagsCol : Column := ⟨"tags", .array "str"⟩

/-- A two-column schema map. -/
def cols2 : List (String × Column) := [("a", colA), ("b", colB)]

/-- The model's relations (`posts`, `profile`). -/
def rels2 : List (String × Relation) := [("posts", ⟨"posts"⟩), ("profile", ⟨"profile"⟩)]

/- ## Sanity checks of the embedding on concrete inputs -/

example : parseProjection .none = .ok ⟨false, []⟩ := rfl
example : mongoProjectionCall cols1 ⟨false, []⟩ = .ok [.load_only colA] := rfl
example : parseSort "MongoSort" (.str "a,,b") = .error .indexError := rfl
example : parseSort "MongoGroup" (.omap [("a", -1)]) = .ok [("a", -1)] := rfl
example : mongoGroupCall cols1 [("a", -1)] = .ok [.desc colA] := rfl
example :
    stmtObj cols1 [("a", .obj [("$gte", .int 18)])] =
      .ok (.ge colA (.val (.int 18))) := by
  simp only [stmtObj, stmtEntries, stmtEntry, opsLoop, compileOp, critKeysOk,
    finishAnd, cols1, colA, prepOperand, Column.isArray, JVal.isList]
  rfl
example :
    selectables cols1 [("n", .obj [("$sum", .int 1)])] =
      .ok ([⟨"n", .countS⟩], [("n", .obj [])]) := rfl
example :
    selectables cols1 [("n", .obj [])] =
      .error (.assertionError "Aggregate: expression can only contain a single operator") := rfl
example : strContains "Criteria: $in argument must be a list" "$in" = true := rfl
example : strContains "Criteria: $all can only be applied to an array column" "$size" = false := rfl

/- ## Claim C1: empty projection -/

/-- Claim C1 counterexample: an empty projection (any of its four surface
forms) parses to exclusion-of-nothing, but compiling it on a one-column
schema emits a load-only directive for that column — the emitted plan is
NOT the empty sequence the claim states. -/
theorem c1_counterexample :
    parseProjection .none = .ok ⟨false, []⟩ ∧
    parseProjection (.str "") = .ok ⟨false, []⟩ ∧
    parseProjection (.list []) = .ok ⟨false, []⟩ ∧
    parseProjection (.obj []) = .ok ⟨false, []⟩ ∧
    projPlan cols1 .none = .ok [.load_only colA] ∧
    ([QueryOpt.load_only colA] : List QueryOpt) ≠ [] :=
  ⟨rfl, rfl, rfl, rfl, rfl, by simp⟩

/-- Claim C1 (amended): compiling an empty projection (None, empty
string, empty list or empty object) takes the exclusion branch with an
empty excluded set, so it emits one load-only directive for EVERY schema
column, in schema order — semantically select-all, but not an empty
plan. -/
theorem c1_empty_projection_loads_all (arg : ProjArg)
    (cols : List (String × Column)) (h : arg.truthy = false) :
    parseProjection arg = .ok ⟨false, []⟩ ∧
    projPlan cols arg = .ok (cols.map fun kv => .load_only kv.2) := by
  have hp : parseProjection arg = .ok ⟨false, []⟩ := by
    simp [parseProjection, h]
  refine ⟨hp, ?_⟩
  have hfil : (cols.filter
      (fun kv => !((([] : List (String × Int)).map Prod.fst).contains kv.1))) = cols :=
    List.filter_eq_self.mpr (fun a _ => rfl)
  simp [projPlan, hp, mongoProjectionCall, projectionOptions, projectionColumns,
    hfil, List.map_map, Except.map, Function.comp]

/-- Claim C1 witness: the amended theorem at `arg = None` on the sample
one-column schema. -/
theorem c1_empty_projection_loads_all_witness :
    parseProjection .none = .ok ⟨false, []⟩ ∧
    projPlan cols1 .none = .ok [.load_only colA] :=
  c1_empty_projection_loads_all .none cols1 rfl

/- ## Claim C2: group direction -/

/-- Claim C2 counterexample: a group entry with direction `-1` parses
fine and compiles to a DESCENDING-wrapped key (`columns[name].desc()`),
not the bare column handle the claim states. -/
theorem c2_counterexample :
    parseSort "MongoGroup" (.omap [("a", -1)]) = .ok [("a", -1)] ∧
    mongoGroupCall cols1 [("a", -1)] = .ok [.desc colA] ∧
    OrderKey.desc colA ≠ OrderKey.col colA :=
  ⟨rfl, rfl, by simp⟩

/-- Helper: when every sort key resolves (to `f name`), the key loop of
`MongoSort.columns` emits, in order, one key per entry with the
direction applied. -/
theorem sortKeysLoop_resolved (cols : List (String × Column))
    (f : String → Column) :
    ∀ sort : List (String × Int),
      (∀ kv ∈ sort, cols.lookup kv.1 = some (f kv.1)) →
      sortKeysLoop cols sort = .ok (sort.map fun kv =>
        if kv.2 = -1 then OrderKey.desc (f kv.1) else .col (f kv.1))
  | [], _ => rfl
  | kv :: rest, h => by
    have hh := h kv (by simp)
    have ih := sortKeysLoop_resolved cols f rest (fun x hx => h x (by simp [hx]))
    simp [sortKeysLoop, hh, ih, Except.map]

/-- Claim C2 (amended): `MongoGroup.__call__` reuses `MongoSort.columns`
unchanged, so the group plan is exactly the sort plan of the same spec:
an ordered sequence of resolved column handles WITH the direction
applied (an entry with direction `-1` emits a descending-wrapped key). -/
theorem c2_group_applies_direction (cols : List (String × Column))
    (sort : List (String × Int)) (f : String → Column)
    (h : ∀ kv ∈ sort, cols.lookup kv.1 = some (f kv.1)) :
    mongoGroupCall cols sort = .ok (sort.map fun kv =>
      if kv.2 = -1 then OrderKey.desc (f kv.1) else .col (f kv.1)) ∧
    mongoGroupCall cols sort = mongoSortCall cols sort := by
  have hall : sort.all (fun kv => (cols.lookup kv.1).isSome) = true := by
    rw [List.all_eq_true]
    intro kv hkv
    simp [h kv hkv]
  have hloop := sortKeysLoop_resolved cols f sort h
  exact ⟨by simp [mongoGroupCall, mongoSortColumns, hall, hloop],
    by simp [mongoGroupCall, mongoSortCall, mongoSortColumns, hall]⟩

/-- Claim C2 witness: the amended theorem on a two-column schema with a
descending and an ascending entry. -/
theorem c2_group_applies_direction_witness :
    mongoGroupCall cols2 [("a", -1), ("b", 1)] = .ok [.desc colA, .col colB] ∧
    mongoGroupCall cols2 [("a", -1), ("b", 1)] =
      mongoSortCall cols2 [("a", -1), ("b", 1)] :=
  c2_group_applies_direction cols2 [("a", -1), ("b", 1)]
    (fun n => if n = "a" then colA else colB) (by decide)

/- ## Claim C3: aggregate compilation mutates its spec -/

/-- Claim C3 counterexample: compiling `{n: {$sum: 1}}` succeeds but
leaves the expression object EMPTY (`popitem()`), and compiling the
post-state fails with the single-operator shape error — so compiling
the same canonical form a second time does not yield the same plan. -/
theorem c3_counterexample :
    selectables cols1 [("n", .obj [("$sum", .int 1)])] =
      .ok ([⟨"n", .countS⟩], [("n", .obj [])]) ∧
    JVal.obj ([] : List (String × JVal)) ≠ .obj [("$sum", .int 1)] ∧
    selectables cols1 [("n", .obj [])] =
      .error (.assertionError "Aggregate: expression can only contain a single operator") :=
  ⟨rfl, by simp, rfl⟩

/-- Helper: the per-entry compiler returns the entry's expression with
an object popped empty and anything else unchanged. -/
theorem selectOne_state (cols : List (String × Column)) (f : String)
    (e : JVal) (sel : Selectable) (e' : JVal)
    (h : selectOne cols f e = .ok (sel, e')) :
    e' = emptyExprObj e := by
  cases e with
  | null => simp [selectOne] at h
  | bool b => simp [selectOne] at h
  | int n => simp [selectOne] at h
  | arr vs => simp [selectOne] at h
  | str s =>
    unfold selectOne at h
    dsimp only at h
    cases hl : cols.lookup s with
    | some c => rw [hl] at h; cases h; rfl
    | none => rw [hl] at h; simp at h
  | obj kvs =>
    rcases kvs with _ | ⟨⟨op, expr⟩, tl⟩
    · simp [selectOne] at h
    · rcases tl with _ | ⟨hd2, tl2⟩
      · have h' : (match aggExprStmt cols op expr with
            | .ok stmt =>
              match aggOpStmt op stmt with
              | .ok comp => Except.ok ((⟨f, comp⟩ : Selectable), JVal.obj [])
              | .error err => .error err
            | .error err => .error err) = .ok (sel, e') := h
        cases ha : aggExprStmt cols op expr with
        | error err => rw [ha] at h'; simp at h'
        | ok stmt =>
          rw [ha] at h'
          dsimp only at h'
          cases hb : aggOpStmt op stmt with
          | error err => rw [hb] at h'; simp at h'
          | ok comp => rw [hb] at h'; cases h'; rfl
      · simp [selectOne] at h

/-- Claim C3 (amended): the aggregate compiler consumes the spec it
compiles: on success the spec's post-state has every object-valued
expression emptied by `popitem()` (string expressions unchanged), so the
spec is NOT left unchanged and recompiling it fails with the
single-operator shape error. -/
theorem c3_aggregate_empties_expressions (cols : List (String × Column))
    (spec : List (String × JVal))
    (out : List Selectable × List (String × JVal))
    (h : selectables cols spec = .ok out) :
    out.2 = emptyExprObjs spec := by
  induction spec generalizing out with
  | nil =>
    unfold selectables at h
    cases h
    rfl
  | cons kv rest ih =>
    obtain ⟨f, e⟩ := kv
    unfold selectables at h
    cases hso : selectOne cols f e with
    | error err => rw [hso] at h; cases h
    | ok p =>
      rw [hso] at h
      cases hsr : selectables cols rest with
      | error err => rw [hsr] at h; cases h
      | ok q =>
        rw [hsr] at h
        cases h
        have hs := selectOne_state cols f e p.1 p.2 (by rw [hso])
        simp [emptyExprObjs, List.map_cons]
        exact ⟨hs, ih q hsr⟩

/-- Claim C3 witness: the amended theorem applied to a two-entry
aggregate spec (a counted `$sum` and a plain column reference). -/
theorem c3_aggregate_empties_expressions_witness :
    ([("n", JVal.obj []), ("c", JVal.str "a")] : List (String × JVal)) =
      emptyExprObjs [("n", .obj [("$sum", .int 1)]), ("c", .str "a")] :=
  c3_aggregate_empties_expressions cols1
    [("n", .obj [("$sum", .int 1)]), ("c", .str "a")]
    ([⟨"n", .countS⟩, ⟨"c", .colRefS colA⟩],
      [("n", JVal.obj []), ("c", JVal.str "a")]) rfl

/- ## Claim C4: object projections and mixing -/

/-- Claim C4 counterexample: the dict projection `{a: 2, b: 0}` mixes a
truthy value with a falsy one, yet its value sum (2) equals the entry
count, so the source's sum check ACCEPTS it — in inclusion mode with the
falsy entry `b: 0` not matching the mode. -/
theorem c4_counterexample :
    parseProjection (.obj [("a", 2), ("b", 0)]) =
      .ok ⟨true, [("a", 2), ("b", 0)]⟩ ∧
    (∃ kv ∈ ([("a", 2), ("b", 0)] : List (String × Int)), (kv.2 != 0) = true) ∧
    (∃ kv ∈ ([("a", 2), ("b", 0)] : List (String × Int)), (kv.2 != 0) = false) :=
  ⟨rfl, by decide, by decide⟩

/-- Helper: a list of 0/1 values has a sum between 0 and its length. -/
theorem sum01_le (l : List Int) (h : ∀ v ∈ l, v = 0 ∨ v = 1) :
    0 ≤ l.sum ∧ l.sum ≤ l.length := by
  induction l with
  | nil => simp
  | cons v rest ih =>
    have hv := h v (by simp)
    have hr := ih (fun x hx => h x (by simp [hx]))
    simp only [List.sum_cons, List.length_cons]
    omega

/-- Helper: a list of 0/1 values sums to 0 only when all are 0. -/
theorem sum01_eq_zero (l : List Int) (h : ∀ v ∈ l, v = 0 ∨ v = 1)
    (hz : l.sum = 0) : ∀ v ∈ l, v = 0 := by
  induction l with
  | nil => simp
  | cons v rest ih =>
    have hv := h v (by simp)
    have hr := sum01_le rest (fun x hx => h x (by simp [hx]))
    simp only [List.sum_cons] at hz
    intro x hx
    rcases List.mem_cons.mp hx with hx | hx
    · omega
    · exact ih (fun y hy => h y (by simp [hy])) (by omega) x hx

/-- Helper: a list of 0/1 values sums to its length only when all are 1. -/
theorem sum01_eq_len (l : List Int) (h : ∀ v ∈ l, v = 0 ∨ v = 1)
    (hl : l.sum = l.length) : ∀ v ∈ l, v = 1 := by
  induction l with
  | nil => simp
  | cons v rest ih =>
    have hv := h v (by simp)
    have hr := sum01_le rest (fun x hx => h x (by simp [hx]))
    simp only [List.sum_cons, List.length_cons] at hl
    intro x hx
    rcases List.mem_cons.mp hx with hx | hx
    · omega
    · exact ih (fun y hy => h y (by simp [hy])) (by omega) x hx

/-- Claim C4 (amended): restricted to dict projections whose values are
all 0 or 1, the sum check is exact: a mixed dict fails with the
mixed-projection error, and every accepted object projection has all of
its values matching its single mode.  (Values outside 0/1 can defeat
the sum check, as the counterexample `{a: 2, b: 0}` shows.) -/
theorem c4_object_projection_mixing (kvs : List (String × Int))
    (h01 : ∀ kv ∈ kvs, kv.2 = 0 ∨ kv.2 = 1) :
    ((∃ kv ∈ kvs, kv.2 = 1) → (∃ kv ∈ kvs, kv.2 = 0) →
      parseProjection (.obj kvs) =
        .error (.assertionError "Dict projection values shall be all 0s or all 1s")) ∧
    (∀ mp, parseProjection (.obj kvs) = .ok mp →
      ∀ kv ∈ mp.projection, (kv.2 != 0) = mp.inclusion_mode) := by
  have h01' : ∀ v ∈ kvs.map (·.2), v = 0 ∨ v = 1 := by
    intro v hv
    rcases List.mem_map.mp hv with ⟨kv, hkv, rfl⟩
    exact h01 kv hkv
  constructor
  · rintro ⟨kv1, hm1, hv1⟩ ⟨kv0, hm0, hv0⟩
    have hne : kvs ≠ [] := by rintro rfl; cases hm1
    have htr : (ProjArg.obj kvs).truthy = true := by
      simp [ProjArg.truthy, List.isEmpty_iff, hne]
    have hs0 : ¬((kvs.map (fun kv => kv.2)).sum = 0) := by
      intro hz
      have := sum01_eq_zero (kvs.map (fun kv => kv.2)) h01' hz kv1.2
        (List.mem_map.mpr ⟨kv1, hm1, rfl⟩)
      omega
    have hsl : ¬((kvs.map (fun kv => kv.2)).sum = (kvs.length : Int)) := by
      intro hz
      have := sum01_eq_len (kvs.map (fun kv => kv.2)) h01' (by simpa using hz)
        kv0.2 (List.mem_map.mpr ⟨kv0, hm0, rfl⟩)
      omega
    simp [parseProjection, htr, hs0, hsl]
  · intro mp hok kv hkv
    by_cases hne : kvs = []
    · subst hne
      have h' : (Except.ok (⟨false, []⟩ : MongoProjection) : Except Err MongoProjection) =
          .ok mp := hok
      cases h'
      simp at hkv
    · have htr : (ProjArg.obj kvs).truthy = true := by
        simp [ProjArg.truthy, List.isEmpty_iff, hne]
      rw [parseProjection, htr] at hok
      simp only [Bool.true_eq_false, if_false] at hok
      by_cases hcond : (kvs.map (·.2)).sum = 0 ∨ (kvs.map (·.2)).sum = kvs.length
      · rw [if_pos hcond] at hok
        cases hok
        rcases hcond with hz | hl
        · have hall := sum01_eq_zero _ h01' hz
          have hkv0 : kv.2 = 0 := hall kv.2 (List.mem_map.mpr ⟨kv, hkv, rfl⟩)
          have hany : kvs.any (fun kv => kv.2 != 0) = false := by
            rw [List.any_eq_false]
            intro x hx
            have := hall x.2 (List.mem_map.mpr ⟨x, hx, rfl⟩)
            simp [this]
          simp [hany, hkv0]
        · have hall := sum01_eq_len _ h01' (by simpa using hl)
          have hkv1 : kv.2 = 1 := hall kv.2 (List.mem_map.mpr ⟨kv, hkv, rfl⟩)
          have hany : kvs.any (fun kv => kv.2 != 0) = true := by
            rw [List.any_eq_true]
            exact ⟨kv, hkv, by simp [hkv1]⟩
          simp [hany, hkv1]
      · rw [if_neg hcond] at hok
        cases hok

/-- Claim C4 witness: the amended theorem at `{a: 1, b: 0}` (rejected as
mixed) and at `{a: 1, b: 1}` (accepted, all values matching the mode). -/
theorem c4_object_projection_mixing_witness :
    parseProjection (.obj [("a", 1), ("b", 0)]) =
      .error (.assertionError "Dict projection values shall be all 0s or all 1s") ∧
    (∀ kv ∈ ([("a", 1), ("b", 1)] : List (String × Int)), (kv.2 != 0) = true) :=
  ⟨(c4_object_projection_mixing [("a", 1), ("b", 0)] (by decide)).1
      ⟨("a", 1), by decide, rfl⟩ ⟨("b", 0), by decide, rfl⟩,
   (c4_object_projection_mixing [("a", 1), ("b", 1)] (by decide)).2
      ⟨true, [("a", 1), ("b", 1)]⟩ rfl⟩

/- ## Claim C5: the $ne dispatch -/

/-- Helper: a non-list operand is never cast. -/
theorem prepOperand_of_not_list (col : Column) (v : JVal)
    (hv : v.isList = false) : prepOperand col v = .val v := by
  cases v <;> cases hct : col.ctype <;> simp_all [prepOperand, JVal.isList]

/-- Helper: the `$ne` branch of the operator dispatch, with the
unreachable inner branch collapsed. -/
theorem compileOp_ne (col : Column) (v : JVal) :
    compileOp col "$ne" v =
      .ok (if col.isArray && !v.isList then .allNe col (prepOperand col v)
           else .ne col (prepOperand col v)) := by
  cases hc : col.isArray <;> cases hv : v.isList <;>
    simp [compileOp, hc, hv]

/-- Claim C5: for a `$ne` leaf, an array column with a non-list operand
compiles to the all-array-elements-differ predicate
(`col.all(value, ne)`); in every other case (scalar column with any
operand, or array column with a list operand) it compiles to plain
inequality of the column and the (prepared) operand. -/
theorem c5_ne_semantics (col : Column) (v : JVal) :
    (col.isArray = true → v.isList = false →
      compileOp col "$ne" v = .ok (.allNe col (.val v))) ∧
    (col.isArray = false ∨ v.isList = true →
      compileOp col "$ne" v = .ok (.ne col (prepOperand col v))) := by
  constructor
  · intro hc hv
    rw [compileOp_ne, prepOperand_of_not_list col v hv, hc, hv]
    rfl
  · intro h
    rw [compileOp_ne]
    rcases h with hc | hv
    · rw [hc]; rfl
    · rw [hv]
      cases col.isArray <;> rfl

/-- Claim C5 witness: the `$ne` dispatch at an array column with a
scalar operand, a scalar column, and an array column with a list
operand (which is cast to the element type). -/
theorem c5_ne_semantics_witness :
    compileOp tagsCol "$ne" (.int 5) = .ok (.allNe tagsCol (.val (.int 5))) ∧
    compileOp colA "$ne" (.int 5) = .ok (.ne colA (.val (.int 5))) ∧
    compileOp tagsCol "$ne" (.arr [.str "x"]) =
      .ok (.ne tagsCol (.castArray [.str "x"] "str")) :=
  ⟨(c5_ne_semantics tagsCol (.int 5)).1 rfl rfl,
   (c5_ne_semantics colA (.int 5)).2 (Or.inl rfl),
   (c5_ne_semantics tagsCol (.arr [.str "x"])).2 (Or.inr rfl)⟩

/- ## Claim C6: operator-constraint errors -/

/-- Claim C6: `$all` and `$size` on a non-array column fail, and `$in`
and `$nin` with a non-list operand fail, all with the source's
assertion messages — but the `$size` failure reuses the `$all` message
verbatim, so the error for `$size` does NOT carry the offending
operator token (it names `$all` instead): the code contradicts the
claim for `$size`. -/
theorem c6_operator_constraint_errors :
    compileOp colA "$in" (.int 5) =
      .error (.assertionError "Criteria: $in argument must be a list") ∧
    compileOp tagsCol "$in" (.int 5) =
      .error (.assertionError "Criteria: $in argument must be a list") ∧
    compileOp colA "$nin" (.int 5) =
      .error (.assertionError "Criteria: $nin argument must be a list") ∧
    compileOp colA "$all" (.arr [.int 1]) =
      .error (.assertionError "Criteria: $all can only be applied to an array column") ∧
    compileOp colA "$size" (.int 0) =
      .error (.assertionError "Criteria: $all can only be applied to an array column") ∧
    strContains "Criteria: $in argument must be a list" "$in" = true ∧
    strContains "Criteria: $nin argument must be a list" "$nin" = true ∧
    strContains "Criteria: $all can only be applied to an array column" "$all" = true ∧
    strContains "Criteria: $all can only be applied to an array column" "$size" = false :=
  ⟨rfl, rfl, rfl, rfl, rfl, rfl, rfl, rfl, rfl⟩

/- ## Claim C7: the $sum counting special case -/

/-- Helper: when the operand is not integer-like, its resolution never
produces a bare-integer statement. -/
theorem aggExprStmt_no_int (cols : List (String × Column)) (op : String)
    (e : JVal) (stmt : AggExprStmt) (hn : toPyInt? e = Option.none)
    (h : aggExprStmt cols op e = .ok stmt) : ∀ m, stmt ≠ .intE m := by
  unfold aggExprStmt at h
  rw [hn] at h
  simp only [Option.isSome_none, Bool.false_and, Bool.false_eq_true,
    if_false] at h
  cases e with
  | null => simp at h
  | bool b => simp [toPyInt?] at hn
  | int n => simp [toPyInt?] at hn
  | arr vs => simp at h
  | str s =>
    dsimp only at h
    cases hl : cols.lookup s with
    | some c => rw [hl] at h; cases h; intro m hm; cases hm
    | none => rw [hl] at h; simp at h
  | obj kvs =>
    dsimp only at h
    cases hs : stmtObj cols kvs with
    | ok p => rw [hs] at h; cases h; intro m hm; cases hm
    | error err => rw [hs] at h; simp at h

/-- Claim C7: an aggregate entry `{f: {$sum: n}}` with integer operand
compiles to `count()` labeled `f` when `n = 1` and to `count() * n`
otherwise; `$sum` with a non-integer operand that resolves to `stmt`
compiles to `sum(stmt)` labeled `f`.  In both cases the expression
object is left empty. -/
theorem c7_sum_count_special_case (cols : List (String × Column))
    (f : String) (n : Int) :
    selectables cols [(f, .obj [("$sum", .int n)])] =
      .ok ([⟨f, if n = 1 then CompStmt.countS else .countMulS n⟩],
        [(f, .obj [])]) ∧
    (∀ e stmt, toPyInt? e = Option.none → aggExprStmt cols "$sum" e = .ok stmt →
      selectables cols [(f, .obj [("$sum", e)])] =
        .ok ([⟨f, .sumS stmt⟩], [(f, .obj [])])) := by
  constructor
  · simp [selectables, selectOne, aggExprStmt, aggOpStmt, toPyInt?]
  · intro e stmt hnone hres
    have hop : aggOpStmt "$sum" stmt = .ok (.sumS stmt) := by
      have hni := aggExprStmt_no_int cols "$sum" e stmt hnone hres
      cases stmt with
      | intE m => exact absurd rfl (hni m)
      | colE c => rfl
      | castE p => rfl
    simp [selectables, selectOne, hres, hop]

/-- Claim C7 witness: `{t: {$sum: 3}}` compiles to `count() * 3`, and
`{s: {$sum: "a"}}` (non-integer operand) compiles to `sum(a)`. -/
theorem c7_sum_count_special_case_witness :
    selectables cols1 [("t", .obj [("$sum", .int 3)])] =
      .ok ([⟨"t", .countMulS 3⟩], [("t", .obj [])]) ∧
    selectables cols1 [("s", .obj [("$sum", .str "a")])] =
      .ok ([⟨"s", .sumS (.colE colA)⟩], [("s", .obj [])]) :=
  ⟨(c7_sum_count_special_case cols1 "t" 3).1,
   (c7_sum_count_special_case cols1 "s" 3).2 (.str "a") (.colE colA) rfl rfl⟩

/- ## Claim C8: join lazy-load complement -/

/-- Claim C8: with distinct schema relation names, a valid join request
makes `MongoJoin.options` emit a duplicate-free plan holding a lazy-load
directive exactly for the relations NOT requested (requested ones never
appear), and a request naming an unknown relation fails with the
unknown-relation validation error. -/
theorem c8_join_lazyload_complement (rels : List (String × Relation))
    (req : List String) (hnd : (rels.map Prod.fst).Nodup) :
    ((∀ r ∈ req, r ∈ rels.map Prod.fst) →
      ∃ l, mongoJoinOptions rels req = .ok l ∧ l.Nodup ∧
        (∀ r : String, QueryOpt.lazyload r ∈ l ↔
          (r ∈ rels.map Prod.fst ∧ r ∉ req))) ∧
    ((∃ r ∈ req, r ∉ rels.map Prod.fst) →
      mongoJoinOptions rels req =
        .error (.assertionError "Invalid column specified in MongoJoin")) := by
  constructor
  · intro hsub
    have hall : req.all (fun r => (rels.map Prod.fst).contains r) = true := by
      rw [List.all_eq_true]
      intro r hr
      exact List.elem_iff.mpr (hsub r hr)
    refine ⟨((rels.map Prod.fst).filter (fun n => !req.contains n)).map .lazyload,
      by unfold mongoJoinOptions; rw [hall]; rfl, ?_, ?_⟩
    · refine List.Nodup.map (fun a b hab => ?_) (hnd.filter _)
      injection hab
    · intro r
      constructor
      · intro hmem
        rcases List.mem_map.mp hmem with ⟨x, hx, hxr⟩
        have hxr' : x = r := by injection hxr
        subst hxr'
        rcases List.mem_filter.mp hx with ⟨h1, h2⟩
        refine ⟨h1, fun hcon => ?_⟩
        rw [Bool.not_eq_true', ← Bool.not_eq_true] at h2
        exact h2 (List.elem_iff.mpr hcon)
      · rintro ⟨h1, h2⟩
        refine List.mem_map.mpr ⟨r, List.mem_filter.mpr ⟨h1, ?_⟩, rfl⟩
        rw [Bool.not_eq_true']
        rw [← Bool.not_eq_true]
        intro hcon
        exact h2 (List.elem_iff.mp hcon)
  · rintro ⟨r, hr, hnot⟩
    have hall : req.all (fun r => (rels.map Prod.fst).contains r) = false := by
      rw [← Bool.not_eq_true, List.all_eq_true]
      intro hcon
      exact hnot (List.elem_iff.mp (hcon r hr))
    unfold mongoJoinOptions
    rw [hall]
    rfl

/-- Claim C8 witness: on the relations `{posts, profile}` the request
`["posts"]` lazy-loads exactly `profile`, and the request `["x"]` fails
with the unknown-relation error. -/
theorem c8_join_lazyload_complement_witness :
    (∃ l, mongoJoinOptions rels2 ["posts"] = .ok l ∧ l.Nodup ∧
      (∀ r : String, QueryOpt.lazyload r ∈ l ↔
        (r ∈ rels2.map Prod.fst ∧ r ∉ ["posts"]))) ∧
    mongoJoinOptions rels2 ["x"] =
      .error (.assertionError "Invalid column specified in MongoJoin") :=
  ⟨(c8_join_lazyload_complement rels2 ["posts"] (by decide)).1 (by decide),
   (c8_join_lazyload_complement rels2 ["x"] (by decide)).2
     ⟨"x", by decide, by decide⟩⟩

/- ## Claim C9: projection surface-form equivalence -/

/-- Helper: splitting a comma-free string yields the single piece. -/
theorem splitAux_no_comma (l : List Char) (h : ',' ∉ l) :
    splitAux l = [l] := by
  induction l with
  | nil => rfl
  | cons c cs ih =>
    rw [List.mem_cons] at h
    push_neg at h
    obtain ⟨h1, h2⟩ := h
    simp only [splitAux]
    rw [if_neg (fun hh => h1 hh.symm), ih h2]

/-- Helper: splitting around the first comma peels off the comma-free
piece before it. -/
theorem splitAux_append (l m : List Char) (h : ',' ∉ l) :
    splitAux (l ++ ',' :: m) = l :: splitAux m := by
  induction l with
  | nil => simp [splitAux]
  | cons c cs ih =>
    rw [List.mem_cons] at h
    push_neg at h
    obtain ⟨h1, h2⟩ := h
    simp only [List.cons_append, splitAux, List.append_eq]
    rw [if_neg (fun hh => h1 hh.symm), ih h2]

/-- Helper: a string whose first character is neither `+` nor `-` is
kept whole, in inclusion mode. -/
theorem stripSign_of_head (l : List Char)
    (hp : l.head? ≠ some '+') (hm : l.head? ≠ some '-') :
    stripSign l = (true, l) := by
  cases l with
  | nil => rfl
  | cons c cs =>
    simp only [List.head?_cons, ne_eq, Option.some.injEq] at hp hm
    simp [stripSign, hp, hm]

/-- Helper: `String.mk` round-trips the character data. -/
theorem strOfL_data (s : String) : strOfL s.data = s := rfl

/-- Claim C9: for field names without commas, with the first name not
starting with a sign, the four projection surface forms — `"a,b"`,
`["a","b"]`, `{a:1, b:1}` and `"+a,b"` — parse to the same canonical
projection (inclusion mode, same ordered field map) and hence compile
to the same plan on every schema. -/
theorem c9_projection_surface_equivalence (a b : String)
    (hca : ',' ∉ a.data) (hcb : ',' ∉ b.data)
    (hpa : a.data.head? ≠ some '+') (hma : a.data.head? ≠ some '-')
    (hab : a ≠ b) :
    parseProjection (.str (a ++ "," ++ b)) = .ok ⟨true, [(a, 1), (b, 1)]⟩ ∧
    parseProjection (.list [a, b]) = .ok ⟨true, [(a, 1), (b, 1)]⟩ ∧
    parseProjection (.obj [(a, 1), (b, 1)]) = .ok ⟨true, [(a, 1), (b, 1)]⟩ ∧
    parseProjection (.str ("+" ++ a ++ "," ++ b)) = .ok ⟨true, [(a, 1), (b, 1)]⟩ ∧
    (∀ cols : List (String × Column),
      projPlan cols (.str (a ++ "," ++ b)) = projPlan cols (.list [a, b]) ∧
      projPlan cols (.str (a ++ "," ++ b)) = projPlan cols (.obj [(a, 1), (b, 1)]) ∧
      projPlan cols (.str (a ++ "," ++ b)) =
        projPlan cols (.str ("+" ++ a ++ "," ++ b))) := by
  have hdict : dictOfList [a, b] 1 = [(a, 1), (b, 1)] := by
    simp only [dictOfList, List.foldl_cons, List.foldl_nil, dictInsert]
    rw [if_neg hab]
  have hdata : (a ++ "," ++ b).data = a.data ++ ',' :: b.data := by
    simp [String.data_append]
  have hsplit : splitAux (a.data ++ ',' :: b.data) = [a.data, b.data] := by
    rw [splitAux_append _ _ hca, splitAux_no_comma _ hcb]
  have hhead : (a.data ++ ',' :: b.data).head? ≠ some '+' ∧
      (a.data ++ ',' :: b.data).head? ≠ some '-' := by
    cases ha : a.data with
    | nil => simp
    | cons c cs =>
      rw [ha] at hpa hma
      simp only [List.head?_cons, ne_eq, Option.some.injEq] at hpa hma
      simp only [List.cons_append, List.head?_cons, ne_eq, Option.some.injEq]
      exact ⟨hpa, hma⟩
  have hstr : parseProjection (.str (a ++ "," ++ b)) =
      .ok ⟨true, [(a, 1), (b, 1)]⟩ := by
    have htr : (ProjArg.str (a ++ "," ++ b)).truthy = true := by
      simp [ProjArg.truthy, hdata]
    rw [parseProjection, htr]
    simp only [Bool.true_eq_false, if_false]
    rw [show (a ++ "," ++ b).data = a.data ++ ',' :: b.data from hdata]
    rw [stripSign_of_head _ hhead.1 hhead.2]
    simp only [hsplit, List.map_cons, List.map_nil, strOfL_data, if_true, hdict]
  have hplus : parseProjection (.str ("+" ++ a ++ "," ++ b)) =
      .ok ⟨true, [(a, 1), (b, 1)]⟩ := by
    have hdata2 : ("+" ++ a ++ "," ++ b).data = '+' :: (a.data ++ ',' :: b.data) := by
      simp [String.data_append]
    have htr : (ProjArg.str ("+" ++ a ++ "," ++ b)).truthy = true := by
      simp [ProjArg.truthy, hdata2]
    rw [parseProjection, htr]
    simp only [Bool.true_eq_false, if_false]
    rw [show ("+" ++ a ++ "," ++ b).data = '+' :: (a.data ++ ',' :: b.data) from hdata2]
    have hss : stripSign ('+' :: (a.data ++ ',' :: b.data)) =
        (true, a.data ++ ',' :: b.data) := by
      simp [stripSign]
    rw [hss]
    simp only [hsplit, List.map_cons, List.map_nil, strOfL_data, if_true, hdict]
  have hlist : parseProjection (.list [a, b]) = .ok ⟨true, [(a, 1), (b, 1)]⟩ := by
    rw [parseProjection]
    simp only [ProjArg.truthy, List.isEmpty_cons, Bool.not_false,
      Bool.true_eq_false, if_false]
    rw [hdict]
  have hobj : parseProjection (.obj [(a, 1), (b, 1)]) =
      .ok ⟨true, [(a, 1), (b, 1)]⟩ := rfl
  refine ⟨hstr, hlist, hobj, hplus, fun cols => ?_⟩
  rw [projPlan, projPlan, projPlan, projPlan, hstr, hlist, hobj, hplus]
  exact ⟨rfl, rfl, rfl⟩

/-- Claim C9 witness: the four surface forms at `a`, `b` on the sample
schema compile identically. -/
theorem c9_projection_surface_equivalence_witness :
    parseProjection (.str "a,b") = .ok ⟨true, [("a", 1), ("b", 1)]⟩ ∧
    parseProjection (.list ["a", "b"]) = .ok ⟨true, [("a", 1), ("b", 1)]⟩ ∧
    parseProjection (.obj [("a", 1), ("b", 1)]) = .ok ⟨true, [("a", 1), ("b", 1)]⟩ ∧
    parseProjection (.str "+a,b") = .ok ⟨true, [("a", 1), ("b", 1)]⟩ := by
  have h := c9_projection_surface_equivalence "a" "b" (by decide) (by decide)
    (by decide) (by decide) (by decide)
  exact ⟨h.1, h.2.1, h.2.2.1, h.2.2.2.1⟩

/- ## Claim C10: sort parser on an empty token -/

/-- Claim C10: parsing the sort string `"a,,b"` reaches `v[-1]` on the
empty middle token and raises `IndexError` — an out-of-bounds indexing
error, not a structured shape/direction validation error. -/
theorem c10_sort_empty_token_index_error :
    parseSort "MongoSort" (.str "a,,b") = .error .indexError ∧
    parseSort "MongoSort" (.str ",") = .error .indexError :=
  ⟨rfl, rfl⟩

end MongoSql
